import Mathlib

/-!
# Verification of the BachesScanner Flask server (flask-server/app.py)

Shallow embedding of the road-damage-detection server.  Pixel buffers are
modelled by their dimensions (OpenCV `shape[:2] = (height, width)`); drawing
operations change pixel contents but never the shape, and no claim below
depends on pixel contents.  External collaborators (the base64 codec of the
standard library, the JPEG encoder/decoder of PIL, the opaque YOLO model,
and the filesystem write of `save_base64_image`) are passed in as explicit
function parameters; the repository's own control flow and arithmetic are
translated directly from the source.
-/

set_option maxHeartbeats 1000000

/-- A pixel buffer, modelled by its dimensions: `h, w = image.shape[:2]`.
`np.array(img).size == 0` corresponds to `h * w = 0`. -/
structure Img where
  h : Nat
  w : Nat
  deriving DecidableEq

/-- `CLASSES = ["Longitudinal Crack", "Transverse Crack", "Alligator Crack", "Potholes"]`
(app.py line 33). -/
def CLASSES : List String :=
  ["Longitudinal Crack", "Transverse Crack", "Alligator Crack", "Potholes"]

/-- Python `int()` applied to a rational: truncation toward zero. -/
def pyTrunc (q : ℚ) : ℤ :=
  if 0 ≤ q then ⌊q⌋ else ⌈q⌉

/-- One rescaled coordinate of `run_yolo_inference` (app.py lines 295-298):
`int(x * dim_ori / 640)`. -/
def rescaleCoord (x : ℚ) (dim : Nat) : ℤ :=
  pyTrunc (x * dim / 640)

/-- Python list indexing `l[i]`: nonnegative indices count from the front,
negative indices from the back, out-of-range raises IndexError (here: `none`). -/
def pyIndex {α : Type} (l : List α) (i : ℤ) : Option α :=
  if 0 ≤ i then l.get? i.toNat
  else if (-i) ≤ (l.length : ℤ) then l.get? (l.length - (-i).toNat)
  else none

/-- The class-label mapping of `run_yolo_inference` (app.py lines 303-305):
`CLASSES[cls_id] if cls_id < len(CLASSES) else f"Class_{cls_id}"`.
`none` models an uncaught IndexError inside the `try` block. -/
def classNameOf (cls_id : ℤ) : Option String :=
  if cls_id < (CLASSES.length : ℤ) then pyIndex CLASSES cls_id
  else some ("Class_" ++ toString cls_id)

/-- A raw box produced by the opaque YOLO model: model-space corner
coordinates, class index and confidence. -/
structure RawBox where
  x1 : ℚ
  y1 : ℚ
  x2 : ℚ
  y2 : ℚ
  cls : ℤ
  conf : ℚ
  deriving DecidableEq

/-- One entry of the `detections` list built by `run_yolo_inference`
(app.py lines 308-314): `{"class": ..., "confidence": ..., "bbox": [x1,y1,x2,y2]}`. -/
structure Damage where
  className : String
  confidence : ℚ
  bbox : List ℤ
  deriving DecidableEq

/-- Build one detection dict from a raw box (app.py lines 292-314). -/
def mkDamage (hOri wOri : Nat) (name : String) (b : RawBox) : Damage :=
  { className := name
    confidence := b.conf
    bbox := [rescaleCoord b.x1 wOri, rescaleCoord b.y1 hOri,
             rescaleCoord b.x2 wOri, rescaleCoord b.y2 hOri] }

/-- The per-box loop of `run_yolo_inference` (app.py lines 290-342): each box is
rescaled and labelled; an IndexError while labelling aborts the whole batch
(the surrounding `try` then returns the original image and `[]`). -/
def processBoxes (hOri wOri : Nat) : List RawBox → Option (List Damage)
  | [] => some []
  | b :: bs =>
    match classNameOf b.cls with
    | none => none
    | some nm =>
      match processBoxes hOri wOri bs with
      | none => none
      | some rest => some (mkDamage hOri wOri nm b :: rest)

/-- The detection-building part of `run_yolo_inference` once the model call
has returned a box list: rescale and label the boxes; an IndexError while
labelling is caught by the surrounding `try`, which returns the original
image with no detections. -/
def yoloOk (image : Img) (boxes : List RawBox) : Img × List Damage :=
  match processBoxes image.h image.w boxes with
  | none => (image, [])
  | some dets => (image, dets)

/-- `run_yolo_inference(image, confidence_threshold)` (app.py lines 259-357).
The model handle is `Option`-valued (`model is None` soft-degrades); the model
invocation may raise (`Except.error`), which the handler catches and treats
identically.  The annotated image is a copy of the original with boxes drawn
on it; drawing never changes the dimensions, so in this dimension-level model
it is the original buffer. -/
def run_yolo_inference :
    Option (Img → ℚ → Except Unit (List RawBox)) → Img → ℚ → Img × List Damage
  | none, image, _ => (image, [])
  | some predict, image, confidence_threshold =>
    match predict ⟨640, 640⟩ confidence_threshold with
    | Except.error _ => (image, [])
    | Except.ok boxes => yoloOk image boxes

/-- Python `str.split(sep)` restricted to a single character separator. -/
def splitChar (c : Char) : List Char → List (List Char)
  | [] => [[]]
  | x :: xs =>
    if x = c then [] :: splitChar c xs
    else
      match splitChar c xs with
      | [] => [[x]]
      | p :: ps => (x :: p) :: ps

/-- Data-URL stripping of `base64_to_image` (app.py lines 161-163):
`if "," in s: s = s.split(",")[1]`. -/
def stripDataUrl (s : List Char) : List Char :=
  if ',' ∈ s then (splitChar ',' s).getD 1 [] else s

/-- The PIL stage of `base64_to_image` (app.py lines 179-196): a failed
`Image.open` is caught, and an empty array after conversion is rejected. -/
def openedImg : Option Img → Option Img
  | none => none
  | some img => if img.h * img.w = 0 then none else some img

/-- The decoded-bytes stage of `base64_to_image` (app.py lines 174-196):
reject byte payloads below 1000 bytes, then decode and reject empty buffers. -/
def decodeBytes (imgOpen : List Nat → Option Img) (bytes : List Nat) : Option Img :=
  if bytes.length < 1000 then none else openedImg (imgOpen bytes)

/-- `base64_to_image(base64_string)` (app.py lines 149-202).  `b64dec` is the
standard-library base64 decoder (`none` models the `binascii.Error` the
function catches); `imgOpen` is PIL image decoding (`none` models a raised
decode exception; the produced buffer carries the decoded dimensions, the
RGB-mode normalization and BGR conversion never change them).  All failure
paths of the source return `None`; the embedding is total, so no exception
ever escapes. -/
def base64_to_image (b64dec : List Char → Option (List Nat))
    (imgOpen : List Nat → Option Img) (s : List Char) : Option Img :=
  if s = [] then none
  else if (stripDataUrl s).length < 100 then none
  else
    match b64dec (stripDataUrl s) with
    | none => none
    | some bytes => decodeBytes imgOpen bytes

/-- The resize policy of `image_to_base64` (app.py lines 221-231):
if `max(h, w) > 800`, downscale the larger side to 800 and the other side by
the same ratio, truncating to integer. -/
def resizeDims (img : Img) : Img :=
  if max img.h img.w > 800 then
    if img.h > img.w then { h := 800, w := img.w * 800 / img.h }
    else { h := img.h * 800 / img.w, w := 800 }
  else img

/-- The data-URL header prepended by `image_to_base64` (app.py line 250). -/
def dataUrlHeader : List Char := "data:image/jpeg;base64,".toList

/-- `dataUrlHeader` without its trailing comma. -/
def dataUrlHead : List Char := "data:image/jpeg;base64".toList

/-- The resize call of `image_to_base64` (app.py lines 224-231): when either
dimension exceeds 800 the buffer is resized to `resizeDims`; `cv2.resize`
raises on a degenerate target size (a dimension truncated to 0 by the integer
scaling), and the function's catch-all (app.py line 251) turns that exception
into `None`. -/
def cvResize (img : Img) : Option Img :=
  if max img.h img.w > 800 then
    if (resizeDims img).h = 0 ∨ (resizeDims img).w = 0 then none
    else some (resizeDims img)
  else some img

/-- `image_to_base64(image)` (app.py lines 205-256).  `jpegEnc` is the PIL
JPEG encoder at the fixed quality 60, `b64enc` the standard-library base64
encoder.  Returns `None` for a missing or zero-sized buffer, and for a buffer
whose downscale target degenerates (the `cv2.resize` exception caught at
line 251). -/
def image_to_base64 (jpegEnc : Img → List Nat) (b64enc : List Nat → List Char)
    (image : Option Img) : Option (List Char) :=
  match image with
  | none => none
  | some img =>
    if img.h * img.w = 0 then none
    else
      match cvResize img with
      | none => none
      | some resized => some (dataUrlHeader ++ b64enc (jpegEnc resized))

/-- A client-supplied damage record as stored in the `detected_damages` JSON
column: the `class` and `confidence` keys may be absent. -/
structure DamageIn where
  className : Option String
  confidence : Option ℚ
  bbox : List ℤ
  deriving DecidableEq

/-- A server-built detection serialized into the `detected_damages` column by
`/api/infer`: all keys present. -/
def Damage.toStored (d : Damage) : DamageIn :=
  { className := some d.className, confidence := some d.confidence, bbox := d.bbox }

/-- One row of the `detections` table (app.py lines 106-119). -/
structure Row where
  image_id : String
  image_path : String
  latitude : ℚ
  longitude : ℚ
  damages : List DamageIn
  scores : List ℚ
  timestamp : Nat
  deriving DecidableEq

/-- The JSON body of a POST `/api/detect` request; `none` marks an absent key. -/
structure DetectReq where
  image_base64 : Option (List Char)
  latitude : Option ℚ
  longitude : Option ℚ
  detected_damages : Option (List DamageIn)
  deriving DecidableEq

/-- The JSON envelope returned by `detect_damage`, plus the HTTP status code. -/
structure DetectResp where
  code : Nat
  status : String
  message : Option String
  detection_id : Option Nat
  image_id : Option String
  damages_count : Option Nat
  deriving DecidableEq

/-- `required_fields` of `detect_damage` (app.py line 533), in source order. -/
def required_fields : List String :=
  ["image_base64", "latitude", "longitude", "detected_damages"]

/-- `field in data` for a `/api/detect` body. -/
def hasField (r : DetectReq) (f : String) : Bool :=
  if f = "image_base64" then r.image_base64.isSome
  else if f = "latitude" then r.latitude.isSome
  else if f = "longitude" then r.longitude.isSome
  else if f = "detected_damages" then r.detected_damages.isSome
  else true

/-- The fail-fast validation loop of `detect_damage` (app.py lines 534-544):
the first required field not present in the body, if any. -/
def firstMissing (r : DetectReq) : Option String :=
  required_fields.find? (fun f => !hasField r f)

/-- `detect_damage` (app.py lines 510-604).  `saveImage` is
`save_base64_image` (a filesystem write returning the path, or `None` on
failure); `newId` is the generated `uuid4`; `now` the insert timestamp; `db`
the rows of the `detections` table in insertion order.  `lastrowid` is
modelled as `db.length + 1` (AUTOINCREMENT, no deletes). -/
def detect_damage (saveImage : List Char → String → Option String)
    (newId : String) (now : Nat) (data : DetectReq) (db : List Row) :
    DetectResp × List Row :=
  match firstMissing data with
  | some f =>
    ({ code := 400, status := "error",
       message := some ("Missing required field: " ++ f),
       detection_id := none, image_id := none, damages_count := none }, db)
  | none =>
    match saveImage (data.image_base64.getD []) newId with
    | none =>
      ({ code := 500, status := "error", message := some "Failed to save image",
         detection_id := none, image_id := none, damages_count := none }, db)
    | some path =>
      let dmgs := data.detected_damages.getD []
      let scores := dmgs.map (fun d => d.confidence.getD 0)
      let row : Row :=
        { image_id := newId, image_path := path,
          latitude := data.latitude.getD 0, longitude := data.longitude.getD 0,
          damages := dmgs, scores := scores, timestamp := now }
      ({ code := 200, status := "success",
         message := some "Detection saved successfully",
         detection_id := some (db.length + 1), image_id := some newId,
         damages_count := some dmgs.length }, db ++ [row])

/-- The JSON body of a POST `/api/infer` request; `none` marks an absent key. -/
structure InferReq where
  image_base64 : Option (List Char)
  confidence_threshold : Option ℚ
  save_result : Option Bool
  latitude : Option ℚ
  longitude : Option ℚ
  deriving DecidableEq

/-- The JSON envelope returned by `infer_damage`, plus the HTTP status code.
`saved`, `detection_id` and `image_id` are `none` when the corresponding keys
are absent from the response. -/
structure InferResp where
  code : Nat
  status : String
  message : Option String
  annotated_image_base64 : Option (List Char)
  detections : Option (List Damage)
  detection_count : Option Nat
  saved : Option Bool
  detection_id : Option Nat
  image_id : Option String
  deriving DecidableEq

/-- `infer_damage` (app.py lines 607-737): decode, run inference, re-encode,
and optionally persist when `save_result` is set, detections are non-empty,
both coordinates are present and the image save succeeds; a skipped save is
silent. -/
def infer_damage (b64dec : List Char → Option (List Nat))
    (imgOpen : List Nat → Option Img)
    (jpegEnc : Img → List Nat) (b64enc : List Nat → List Char)
    (model : Option (Img → ℚ → Except Unit (List RawBox)))
    (saveImage : List Char → String → Option String)
    (newId : String) (now : Nat) (data : InferReq) (db : List Row) :
    InferResp × List Row :=
  match data.image_base64 with
  | none =>
    ({ code := 400, status := "error",
       message := some "Missing required field: image_base64",
       annotated_image_base64 := none, detections := none,
       detection_count := none,
       saved := none, detection_id := none, image_id := none }, db)
  | some ib =>
    match base64_to_image b64dec imgOpen ib with
    | none =>
      ({ code := 400, status := "error", message := some "Failed to decode image",
         annotated_image_base64 := none, detections := none,
         detection_count := none,
         saved := none, detection_id := none, image_id := none }, db)
    | some image =>
      let res := run_yolo_inference model image
        (data.confidence_threshold.getD (1/2))
      match image_to_base64 jpegEnc b64enc (some res.1) with
      | none =>
        ({ code := 500, status := "error",
           message := some "Failed to encode annotated image",
           annotated_image_base64 := none, detections := none,
           detection_count := none,
           saved := none, detection_id := none, image_id := none }, db)
      | some aib =>
        let base : InferResp :=
          { code := 200, status := "success", message := none,
            annotated_image_base64 := some aib, detections := some res.2,
            detection_count := some res.2.length,
            saved := none, detection_id := none, image_id := none }
        if (data.save_result.getD false) && !res.2.isEmpty then
          match data.latitude, data.longitude with
          | some la, some lo =>
            match saveImage ib newId with
            | some path =>
              let row : Row :=
                { image_id := newId, image_path := path,
                  latitude := la, longitude := lo,
                  damages := res.2.map Damage.toStored,
                  scores := res.2.map (fun d => d.confidence),
                  timestamp := now }
              ({ base with
                  saved := some true,
                  detection_id := some (db.length + 1),
                  image_id := some newId }, db ++ [row])
            | none => (base, db)
          | _, _ => (base, db)
        else (base, db)

/-- The class label used when aggregating: `damage.get("class", "Unknown")`
(app.py line 865). -/
def labelOf (d : DamageIn) : String := d.className.getD "Unknown"

/-- One step of the Python dict update
`damage_types[k] = damage_types.get(k, 0) + 1` (app.py line 866), on an
insertion-ordered association list. -/
def bump (m : List (String × Nat)) (k : String) : List (String × Nat) :=
  match m with
  | [] => [(k, 1)]
  | (k2, v) :: rest => if k2 = k then (k2, v + 1) :: rest else (k2, v) :: bump rest k

/-- Python dict lookup with default 0. -/
def lookupD (m : List (String × Nat)) (k : String) : Nat :=
  match m with
  | [] => 0
  | (k2, v) :: rest => if k2 = k then v else lookupD rest k

/-- Sum of the values of the distribution mapping. -/
def sumVals (m : List (String × Nat)) : Nat := (m.map Prod.snd).sum

/-- `get_stats` (app.py lines 847-894): `SELECT COUNT(*)` plus a scan over
every row's decoded `detected_damages`, counting each entry under
`damage.get("class", "Unknown")`. -/
def get_stats (db : List Row) : Nat × List (String × Nat) :=
  (db.length,
   db.foldl (fun m r => r.damages.foldl (fun m2 d => bump m2 (labelOf d)) m) [])

/-- The class labels of every damage entry across all rows, in scan order. -/
def allLabels : List Row → List String
  | [] => []
  | r :: rs => r.damages.map labelOf ++ allLabels rs

/-- A sequence of single-row inserts starting from an empty table. -/
def insertRows (rows : List Row) : List Row :=
  rows.foldl (fun db r => db ++ [r]) []

/-- The `ORDER BY timestamp DESC` relation of `get_detections`
(app.py line 752). -/
def tsDesc (a b : Row) : Prop := b.timestamp ≤ a.timestamp

instance : DecidableRel tsDesc := fun a b => Nat.decLe b.timestamp a.timestamp

instance : IsTotal Row tsDesc :=
  ⟨fun a b => (Nat.le_total b.timestamp a.timestamp).imp id id⟩

instance : IsTrans Row tsDesc :=
  ⟨fun _ _ _ h1 h2 => Nat.le_trans h2 h1⟩

/-- `get_detections` (app.py lines 740-794): all rows ordered by timestamp
descending.  The SQL `ORDER BY` is modelled by a stable sort under `tsDesc`. -/
def get_detections (db : List Row) : List Row :=
  List.insertionSort tsDesc db

/-- The parallel-sequences invariant of a stored row: `confidence_scores` has
the same length as `detected_damages`, and entry `i` is the confidence of
damage `i` (0 when the damage record has no confidence key). -/
def scoresParallel (r : Row) : Prop :=
  r.scores.length = r.damages.length ∧
  ∀ i : Nat, ∀ hi : i < r.scores.length, ∀ hj : i < r.damages.length,
    r.scores[i] = (r.damages[i]).confidence.getD 0

/-- Concrete JPEG encoder used to instantiate codec parameters in concrete
evaluations: records the dimensions followed by 1000 filler bytes. -/
def wJpegEnc : Img → List Nat := fun im => im.h :: im.w :: List.replicate 1000 7

/-- Concrete image decoder inverting `wJpegEnc` on dimensions. -/
def wImgOpen : List Nat → Option Img := fun bs =>
  match bs with
  | a :: b :: _ => some ⟨a, b⟩
  | _ => none

/-- Concrete base64 encoder: one character per byte, code point 256 + byte,
so the output never contains a comma. -/
def wB64enc : List Nat → List Char := fun bs => bs.map (fun n => Char.ofNat (n + 256))

/-- Concrete base64 decoder inverting `wB64enc`. -/
def wB64dec : List Char → Option (List Nat) := fun cs =>
  some (cs.map (fun c => c.toNat - 256))

/-- A model handle whose invocation always raises. -/
def wErrPredict : Img → ℚ → Except Unit (List RawBox) := fun _ _ => Except.error ()

/-- A model handle returning one box spanning the whole model space. -/
def wOkPredict : Img → ℚ → Except Unit (List RawBox) := fun _ _ =>
  Except.ok [{ x1 := 0, y1 := 0, x2 := 640, y2 := 640, cls := 0, conf := 9/10 }]

/-- A model handle returning one class-3 box in the upper-left quadrant. -/
def wBoxPredict : Img → ℚ → Except Unit (List RawBox) := fun _ _ =>
  Except.ok [{ x1 := 0, y1 := 0, x2 := 320, y2 := 320, cls := 3, conf := 9/10 }]

/-- A `save_base64_image` collaborator that always succeeds. -/
def wSaveImage : List Char → String → Option String := fun _ id =>
  some ("uploads/" ++ id ++ ".jpg")

/-- A transport string that decodes to a 10×10 buffer under `wB64dec`/`wImgOpen`. -/
def wIb : List Char := dataUrlHeader ++ wB64enc (wJpegEnc ⟨10, 10⟩)

/-- A detection's bbox is four integers within the original image's bounds:
x coordinates in `[0, w]`, y coordinates in `[0, h]`. -/
def bboxWithin (w h : Nat) (d : Damage) : Prop :=
  ∃ a b c e, d.bbox = [a, b, c, e] ∧
    0 ≤ a ∧ a ≤ (w : ℤ) ∧ 0 ≤ b ∧ b ≤ (h : ℤ) ∧
    0 ≤ c ∧ c ≤ (w : ℤ) ∧ 0 ≤ e ∧ e ≤ (h : ℤ)

/-- Every detection in the sequence has its bbox within the original bounds. -/
def allBoxesWithin (w h : Nat) (ds : List Damage) : Prop :=
  ∀ d ∈ ds, bboxWithin w h d

/-- The 400 response body naming a missing field (app.py lines 536-544). -/
def missingFieldResp (f : String) : DetectResp :=
  { code := 400, status := "error",
    message := some ("Missing required field: " ++ f),
    detection_id := none, image_id := none, damages_count := none }

/-- `f` is the first required field absent from the body: it is missing, and
every field checked before it in the fixed order is present. -/
def firstMissingSpec (data : DetectReq) (f : String) : Prop :=
  hasField data f = false ∧
  ∃ pre post, required_fields = pre ++ f :: post ∧
    ∀ g ∈ pre, hasField data g = true

/-- The fail-fast rejection behaviour of `detect_damage` on a body with a
missing required field: a 400 error naming the first missing field, no row
inserted. -/
def detectRejectsMissing (saveImage : List Char → String → Option String)
    (newId : String) (now : Nat) (data : DetectReq) (db : List Row) : Prop :=
  ∃ f, firstMissing data = some f ∧ firstMissingSpec data f ∧
    detect_damage saveImage newId now data db = (missingFieldResp f, db)

/-- The conditions under which `infer_damage` persists a row (app.py lines
686-697): save requested, detections non-empty, both coordinates present,
image save succeeded. -/
def saveConds (model : Option (Img → ℚ → Except Unit (List RawBox)))
    (saveImage : List Char → String → Option String)
    (data : InferReq) (ib : List Char) (newId : String) (image : Img) : Prop :=
  data.save_result.getD false = true ∧
  (run_yolo_inference model image
    (data.confidence_threshold.getD (1/2))).2 ≠ [] ∧
  data.latitude.isSome = true ∧ data.longitude.isSome = true ∧
  (saveImage ib newId).isSome = true

/-- A 200 success envelope with the `saved`, `detection_id` and `image_id`
keys omitted. -/
def skippedSaveResp (r : InferResp) : Prop :=
  r.code = 200 ∧ r.status = "success" ∧ r.saved = none ∧
  r.detection_id = none ∧ r.image_id = none

/-- The save policy of `infer_damage`: a row is appended iff all save
conditions hold, and a requested-but-skipped save is silent. -/
def savePolicy (b64dec : List Char → Option (List Nat))
    (imgOpen : List Nat → Option Img)
    (jpegEnc : Img → List Nat) (b64enc : List Nat → List Char)
    (model : Option (Img → ℚ → Except Unit (List RawBox)))
    (saveImage : List Char → String → Option String)
    (newId : String) (now : Nat) (data : InferReq) (db : List Row)
    (ib : List Char) (image : Img) : Prop :=
  ((∃ row, (infer_damage b64dec imgOpen jpegEnc b64enc model saveImage
      newId now data db).2 = db ++ [row]) ↔
    saveConds model saveImage data ib newId image) ∧
  (¬ saveConds model saveImage data ib newId image →
    (infer_damage b64dec imgOpen jpegEnc b64enc model saveImage
      newId now data db).2 = db ∧
    skippedSaveResp (infer_damage b64dec imgOpen jpegEnc b64enc model saveImage
      newId now data db).1)

/-! ## Helper lemmas -/

theorem rescaleCoord_bounds (x : ℚ) (d : Nat) (h0 : 0 ≤ x) (h1 : x ≤ 640) :
    0 ≤ rescaleCoord x d ∧ rescaleCoord x d ≤ (d : ℤ) := by
  have hd : (0 : ℚ) ≤ (d : ℚ) := Nat.cast_nonneg d
  have hq : 0 ≤ x * (d : ℚ) / 640 := by positivity
  unfold rescaleCoord pyTrunc
  rw [if_pos hq]
  refine ⟨Int.floor_nonneg.mpr hq, ?_⟩
  have hle : x * (d : ℚ) / 640 ≤ (d : ℚ) := by
    rw [div_le_iff₀ (by norm_num : (0:ℚ) < 640)]
    have h2 := mul_le_mul_of_nonneg_right h1 hd
    linarith
  calc ⌊x * (d : ℚ) / 640⌋ ≤ ⌊(d : ℚ)⌋ := Int.floor_le_floor hle
    _ = (d : ℤ) := Int.floor_natCast d

theorem processBoxes_mem {hOri wOri : Nat} {bs : List RawBox} {ds : List Damage}
    (hp : processBoxes hOri wOri bs = some ds) :
    ∀ d ∈ ds, ∃ b ∈ bs, ∃ nm, classNameOf b.cls = some nm ∧
      d = mkDamage hOri wOri nm b := by
  induction bs generalizing ds with
  | nil =>
    simp only [processBoxes, Option.some.injEq] at hp
    subst hp; simp
  | cons b bs ih =>
    simp only [processBoxes] at hp
    cases hc : classNameOf b.cls with
    | none => rw [hc] at hp; exact absurd hp (by simp)
    | some nm =>
      rw [hc] at hp
      cases hr : processBoxes hOri wOri bs with
      | none => rw [hr] at hp; exact absurd hp (by simp)
      | some rest =>
        rw [hr] at hp
        simp only [Option.some.injEq] at hp
        subst hp
        intro d hd
        rcases List.mem_cons.mp hd with rfl | hd2
        · exact ⟨b, List.mem_cons_self b bs, nm, hc, rfl⟩
        · obtain ⟨b2, hb2, nm2, hc2, rfl⟩ := ih hr d hd2
          exact ⟨b2, List.mem_cons_of_mem b hb2, nm2, hc2, rfl⟩

theorem run_yolo_fst (model : Option (Img → ℚ → Except Unit (List RawBox)))
    (image : Img) (t : ℚ) : (run_yolo_inference model image t).1 = image := by
  cases model with
  | none => rfl
  | some predict =>
    simp only [run_yolo_inference]
    cases predict ⟨640, 640⟩ t with
    | error e => rfl
    | ok boxes =>
      show (yoloOk image boxes).1 = image
      unfold yoloOk
      cases processBoxes image.h image.w boxes <;> rfl

theorem run_yolo_mem {predict : Img → ℚ → Except Unit (List RawBox)}
    {image : Img} {t : ℚ} {d : Damage}
    (hd : d ∈ (run_yolo_inference (some predict) image t).2) :
    ∃ bs, predict ⟨640, 640⟩ t = Except.ok bs ∧
      ∃ b ∈ bs, ∃ nm, classNameOf b.cls = some nm ∧
        d = mkDamage image.h image.w nm b := by
  revert hd
  simp only [run_yolo_inference]
  cases hpr : predict ⟨640, 640⟩ t with
  | error e => intro hd; simp at hd
  | ok boxes =>
    show d ∈ (yoloOk image boxes).2 → _
    unfold yoloOk
    cases hpb : processBoxes image.h image.w boxes with
    | none => intro hd; simp at hd
    | some ds =>
      intro hd
      simp only at hd
      exact ⟨boxes, rfl, processBoxes_mem hpb d hd⟩

/-! ## Claims -/

/-- **C1**: for every detection emitted by `run_yolo_inference`, if every
model-space box coordinate lies within `[0, 640]`, then every rescaled
coordinate `int(x_model * origDim / 640)` lies within `[0, originalDimension]`,
for any positive original image width and height. -/
theorem rescaled_bbox_within_bounds
    (predict : Img → ℚ → Except Unit (List RawBox)) (image : Img) (t : ℚ)
    (_hh : 0 < image.h) (_hw : 0 < image.w)
    (hbox : ∀ bs, predict ⟨640, 640⟩ t = Except.ok bs → ∀ b ∈ bs,
      0 ≤ b.x1 ∧ b.x1 ≤ 640 ∧ 0 ≤ b.y1 ∧ b.y1 ≤ 640 ∧
      0 ≤ b.x2 ∧ b.x2 ≤ 640 ∧ 0 ≤ b.y2 ∧ b.y2 ≤ 640) :
    allBoxesWithin image.w image.h (run_yolo_inference (some predict) image t).2 := by
  intro d hd
  unfold bboxWithin
  obtain ⟨bs, hpr, b, hb, nm, hnm, rfl⟩ := run_yolo_mem hd
  obtain ⟨hx1a, hx1b, hy1a, hy1b, hx2a, hx2b, hy2a, hy2b⟩ := hbox bs hpr b hb
  refine ⟨_, _, _, _, rfl, ?_, ?_, ?_, ?_, ?_, ?_, ?_, ?_⟩
  · exact (rescaleCoord_bounds b.x1 image.w hx1a hx1b).1
  · exact (rescaleCoord_bounds b.x1 image.w hx1a hx1b).2
  · exact (rescaleCoord_bounds b.y1 image.h hy1a hy1b).1
  · exact (rescaleCoord_bounds b.y1 image.h hy1a hy1b).2
  · exact (rescaleCoord_bounds b.x2 image.w hx2a hx2b).1
  · exact (rescaleCoord_bounds b.x2 image.w hx2a hx2b).2
  · exact (rescaleCoord_bounds b.y2 image.h hy2a hy2b).1
  · exact (rescaleCoord_bounds b.y2 image.h hy2a hy2b).2

/-- **C1** witness: a concrete model returning one box spanning the whole
model space, on a 480×360 image. -/
theorem rescaled_bbox_within_bounds_witness :
    allBoxesWithin 360 480 (run_yolo_inference (some wOkPredict) ⟨480, 360⟩ (1/2)).2 :=
  rescaled_bbox_within_bounds wOkPredict ⟨480, 360⟩ (1/2)
    (by decide) (by decide)
    (by
      intro bs hbs b hb
      simp only [wOkPredict, Except.ok.injEq] at hbs
      subst hbs
      simp only [List.mem_singleton] at hb
      subst hb
      norm_num)

/-- **C3**: if the model handle is unset, or the model invocation raises,
`run_yolo_inference` returns the original image unchanged together with an
empty detection sequence; it is a total function, so detection failures never
propagate to the caller. -/
theorem inference_soft_degrade
    (predict : Img → ℚ → Except Unit (List RawBox)) (image : Img) (t : ℚ)
    (e : Unit) (hp : predict ⟨640, 640⟩ t = Except.error e) :
    run_yolo_inference none image t = (image, []) ∧
    run_yolo_inference (some predict) image t = (image, []) := by
  refine ⟨rfl, ?_⟩
  simp only [run_yolo_inference]
  rw [hp]

/-- **C3** witness: a concrete always-raising model on a 5×6 image. -/
theorem inference_soft_degrade_witness :
    run_yolo_inference none ⟨5, 6⟩ (1/2) = (⟨5, 6⟩, []) ∧
    run_yolo_inference (some wErrPredict) ⟨5, 6⟩ (1/2) = (⟨5, 6⟩, []) :=
  inference_soft_degrade wErrPredict ⟨5, 6⟩ (1/2) () rfl

/-- **C7** counterexample: the model-returned class index `-1` is outside the
known range `0..3`, yet the adapter does not fall back to `"Class_-1"`:
Python negative indexing makes `CLASSES[-1]` yield `"Potholes"`. -/
theorem class_label_fallback_counterexample :
    classNameOf (-1) = some "Potholes" ∧ classNameOf (-1) ≠ some "Class_-1" := by
  constructor
  · decide
  · decide

/-- **C7** (amended): for every nonnegative model-returned class index, the
adapter maps an in-range index to the fixed label by direct indexing and
falls back to the generated `"Class_<index>"` label for every index `≥ 4`;
negative indices instead hit Python negative indexing. -/
theorem class_label_mapping (i : ℤ) (hi : 0 ≤ i) :
    classNameOf i
      = some (if i < 4 then CLASSES.getD i.toNat "" else "Class_" ++ toString i) := by
  lift i to ℕ using hi with n
  by_cases h4 : n < 4
  · interval_cases n <;> decide
  · have h4z : ¬ ((n : ℤ) < 4) := by exact_mod_cast h4
    rw [if_neg h4z]
    unfold classNameOf
    rw [if_neg (by exact_mod_cast h4)]

/-- **C7** witness: the out-of-range index 7 produces `"Class_7"`. -/
theorem class_label_mapping_witness :
    classNameOf 7
      = some (if (7 : ℤ) < 4 then CLASSES.getD (7 : ℤ).toNat ""
              else "Class_" ++ toString (7 : ℤ)) :=
  class_label_mapping 7 (by decide)

/-- **C2**: `base64_to_image` returns a decode failure exactly when the input
is empty, the payload after data-URL stripping is shorter than the minimum
plausible length (100 characters, or a decoded size below 1000 bytes), the
payload is not valid base64, or the decoded bytes are not a decodable
non-empty image; being a total function into `Option`, it never throws.  In
particular every payload shorter than the 100-character threshold fails. -/
theorem decode_fails_iff (b64dec : List Char → Option (List Nat))
    (imgOpen : List Nat → Option Img) (s : List Char) :
    base64_to_image b64dec imgOpen s = none ↔
      (s = [] ∨ (stripDataUrl s).length < 100 ∨ b64dec (stripDataUrl s) = none ∨
       ∃ bytes, b64dec (stripDataUrl s) = some bytes ∧
         (bytes.length < 1000 ∨ imgOpen bytes = none ∨
          ∃ img, imgOpen bytes = some img ∧ img.h * img.w = 0)) := by
  unfold base64_to_image
  by_cases h1 : s = []
  · simp [h1]
  · rw [if_neg h1]
    by_cases h2 : (stripDataUrl s).length < 100
    · simp [h1, h2]
    · rw [if_neg h2]
      cases hb : b64dec (stripDataUrl s) with
      | none => simp [h1, h2, hb]
      | some bytes =>
        show decodeBytes imgOpen bytes = none ↔ _
        unfold decodeBytes
        by_cases h3 : bytes.length < 1000
        · simp [h1, h2, hb, h3]
        · rw [if_neg h3]
          cases ho : imgOpen bytes with
          | none => simp [h1, h2, hb, h3, ho, openedImg]
          | some img =>
            show (if img.h * img.w = 0 then none else some img) = none ↔ _
            by_cases h4 : img.h * img.w = 0
            · simp [h1, h2, hb, h3, ho, h4]
              exact Nat.mul_eq_zero.mp h4
            · simp [h1, h2, hb, h3, ho, h4]
              exact ⟨fun h => h4 (by rw [h, Nat.zero_mul]),
                     fun h => h4 (by rw [h, Nat.mul_zero])⟩

theorem splitChar_of_not_mem {c : Char} {l : List Char} (h : c ∉ l) :
    splitChar c l = [l] := by
  induction l with
  | nil => rfl
  | cons x xs ih =>
    simp only [List.mem_cons, not_or] at h
    have hxc : ¬ x = c := fun hxc => h.1 hxc.symm
    simp only [splitChar, if_neg hxc, ih h.2]

theorem splitChar_append {c : Char} {a : List Char} (b : List Char) (h : c ∉ a) :
    splitChar c (a ++ c :: b) = a :: splitChar c b := by
  induction a with
  | nil => simp [splitChar]
  | cons x xs ih =>
    simp only [List.mem_cons, not_or] at h
    have hxc : ¬ x = c := fun hxc => h.1 hxc.symm
    simp only [List.cons_append, splitChar, if_neg hxc, List.append_eq, ih h.2]

theorem stripDataUrl_header (pay : List Char) (h : ',' ∉ pay) :
    stripDataUrl (dataUrlHeader ++ pay) = pay := by
  have hd : dataUrlHeader = dataUrlHead ++ [','] := by decide
  have hm : ',' ∉ dataUrlHead := by decide
  have hmem : ',' ∈ dataUrlHeader ++ pay := by
    rw [hd]
    simp
  unfold stripDataUrl
  rw [if_pos hmem, hd, List.append_assoc, List.singleton_append,
    splitChar_append pay hm, splitChar_of_not_mem h]
  rfl

theorem cvResize_of_nonzero (img : Img)
    (h : (resizeDims img).h ≠ 0 ∧ (resizeDims img).w ≠ 0) :
    cvResize img = some (resizeDims img) := by
  unfold cvResize
  by_cases hm : max img.h img.w > 800
  · rw [if_pos hm, if_neg (by tauto)]
  · rw [if_neg hm]
    unfold resizeDims
    rw [if_neg hm]

theorem scale_div_bounds (a b : Nat) (h8 : 800 ≤ b) (hab : a ≤ b) :
    a * 800 / b ≤ a ∧ a * 800 / b ≤ 800 := by
  have hb : 0 < b := by omega
  constructor
  · calc a * 800 / b ≤ a * b / b :=
          Nat.div_le_div_right (Nat.mul_le_mul (Nat.le_refl a) h8)
    _ = a := Nat.mul_div_cancel a hb
  · calc a * 800 / b ≤ b * 800 / b :=
          Nat.div_le_div_right (Nat.mul_le_mul hab (Nat.le_refl 800))
    _ = 800 := Nat.mul_div_cancel_left 800 hb

theorem resizeDims_spec (P : Img) :
    (resizeDims P).h ≤ P.h ∧ (resizeDims P).w ≤ P.w ∧
    (resizeDims P).h ≤ 800 ∧ (resizeDims P).w ≤ 800 ∧
    (resizeDims P = P ↔ max P.h P.w ≤ 800) := by
  unfold resizeDims
  by_cases h1 : max P.h P.w > 800
  · rw [if_pos h1]
    by_cases h2 : P.h > P.w
    · rw [if_pos h2]
      dsimp only
      have h8 : 800 ≤ P.h := by omega
      have hab : P.w ≤ P.h := by omega
      obtain ⟨hle, h800⟩ := scale_div_bounds P.w P.h h8 hab
      refine ⟨by omega, hle, Nat.le_refl 800, h800, ?_⟩
      constructor
      · intro heq
        have := congrArg Img.h heq
        dsimp only at this
        omega
      · intro hmax
        exact absurd hmax (by omega)
    · rw [if_neg h2]
      dsimp only
      have h8 : 800 ≤ P.w := by omega
      have hab : P.h ≤ P.w := by omega
      obtain ⟨hle, h800⟩ := scale_div_bounds P.h P.w h8 hab
      refine ⟨hle, by omega, h800, Nat.le_refl 800, ?_⟩
      constructor
      · intro heq
        have := congrArg Img.w heq
        dsimp only at this
        omega
      · intro hmax
        exact absurd hmax (by omega)
  · rw [if_neg h1]
    refine ⟨Nat.le_refl _, Nat.le_refl _, by omega, by omega, ?_⟩
    simp only [true_iff]
    omega

/-- **C5** (amended): `image_to_base64` downsamples iff either dimension
exceeds 800, the encoded dimensions never exceed the original's and are both
at most 800, and `base64_to_image (image_to_base64 P)` yields a buffer with
exactly the downscaled dimensions — equal to `P`'s whenever both are at most
800 — provided the downscaled dimensions are nonzero (for aspect ratios above
800 the smaller dimension truncates to 0, `cv2.resize` raises, and
`image_to_base64` itself returns `None`, see the counterexample) and the
external JPEG/base64 codecs round-trip the encoded payload.  -/
theorem encode_decode_roundtrip
    (jpegEnc : Img → List Nat) (b64enc : List Nat → List Char)
    (b64dec : List Char → Option (List Nat)) (imgOpen : List Nat → Option Img)
    (P : Img)
    (hP : P.h * P.w ≠ 0)
    (hres : (resizeDims P).h * (resizeDims P).w ≠ 0)
    (h1 : imgOpen (jpegEnc (resizeDims P)) = some (resizeDims P))
    (h2 : b64dec (b64enc (jpegEnc (resizeDims P))) = some (jpegEnc (resizeDims P)))
    (h3 : ',' ∉ b64enc (jpegEnc (resizeDims P)))
    (h4 : 1000 ≤ (jpegEnc (resizeDims P)).length)
    (h5 : 100 ≤ (b64enc (jpegEnc (resizeDims P))).length) :
    image_to_base64 jpegEnc b64enc (some P)
        = some (dataUrlHeader ++ b64enc (jpegEnc (resizeDims P))) ∧
    base64_to_image b64dec imgOpen
        (dataUrlHeader ++ b64enc (jpegEnc (resizeDims P)))
        = some (resizeDims P) ∧
    (resizeDims P).h ≤ P.h ∧ (resizeDims P).w ≤ P.w ∧
    (resizeDims P).h ≤ 800 ∧ (resizeDims P).w ≤ 800 ∧
    (resizeDims P = P ↔ max P.h P.w ≤ 800) := by
  obtain ⟨ha, hb, hc, hdd, he⟩ := resizeDims_spec P
  refine ⟨?_, ?_, ha, hb, hc, hdd, he⟩
  · show (if P.h * P.w = 0 then none
          else match cvResize P with
               | none => none
               | some resized => some (dataUrlHeader ++ b64enc (jpegEnc resized))) = _
    rw [if_neg hP, cvResize_of_nonzero P (Nat.mul_ne_zero_iff.mp hres)]
  · have hne : dataUrlHeader ++ b64enc (jpegEnc (resizeDims P)) ≠ [] := by
      intro hcon
      have := congrArg List.length hcon
      simp [dataUrlHeader] at this
    unfold base64_to_image
    rw [if_neg hne, stripDataUrl_header _ h3, if_neg (by omega), h2]
    show decodeBytes imgOpen (jpegEnc (resizeDims P)) = some (resizeDims P)
    unfold decodeBytes
    rw [if_neg (by omega), h1]
    show (if (resizeDims P).h * (resizeDims P).w = 0 then none
          else some (resizeDims P)) = _
    rw [if_neg hres]

theorem char_toNat_ofNat (m : Nat) (h : m < 55296) : (Char.ofNat m).toNat = m := by
  have hv : m.isValidChar := Or.inl h
  simp only [Char.ofNat, dif_pos hv]
  rfl

theorem wJpegEnc_length (im : Img) : (wJpegEnc im).length = 1002 := by
  unfold wJpegEnc
  rw [List.length_cons, List.length_cons, List.length_replicate]

theorem wB64enc_length (bs : List Nat) : (wB64enc bs).length = bs.length := by
  simp [wB64enc]

theorem wJpegEnc_mem_lt (im : Img) (hh : im.h < 55040) (hw : im.w < 55040) :
    ∀ n ∈ wJpegEnc im, n < 55040 := by
  intro n hn
  simp only [wJpegEnc, List.mem_cons] at hn
  rcases hn with rfl | rfl | h7
  · exact hh
  · exact hw
  · have := List.eq_of_mem_replicate h7
    omega

theorem wB64_roundtrip (bs : List Nat) (h : ∀ n ∈ bs, n < 55040) :
    wB64dec (wB64enc bs) = some bs := by
  unfold wB64dec wB64enc
  rw [List.map_map]
  have hcong : ∀ n ∈ bs,
      ((fun c : Char => c.toNat - 256) ∘ fun n => Char.ofNat (n + 256)) n = id n := by
    intro n hn
    have hb := h n hn
    simp only [Function.comp_apply, id_eq, char_toNat_ofNat (n + 256) (by omega)]
    omega
  rw [List.map_congr_left hcong, List.map_id]

theorem wB64enc_no_comma (bs : List Nat) (h : ∀ n ∈ bs, n < 55040) :
    ',' ∉ wB64enc bs := by
  intro hmem
  simp only [wB64enc, List.mem_map] at hmem
  obtain ⟨n, hn, heq⟩ := hmem
  have ht := congrArg Char.toNat heq
  rw [char_toNat_ofNat (n + 256) (by have := h n hn; omega)] at ht
  have hc : (',').toNat = 44 := rfl
  omega

theorem wImgOpen_wJpegEnc (im : Img) : wImgOpen (wJpegEnc im) = some im := rfl

theorem wDecode_encoded (im : Img) (hh : im.h < 55040) (hw : im.w < 55040) :
    base64_to_image wB64dec wImgOpen (dataUrlHeader ++ wB64enc (wJpegEnc im))
      = if im.h * im.w = 0 then none else some im := by
  have hmem := wJpegEnc_mem_lt im hh hw
  have hnc := wB64enc_no_comma _ hmem
  have hrt := wB64_roundtrip _ hmem
  have hne : dataUrlHeader ++ wB64enc (wJpegEnc im) ≠ [] := by
    have hdne : dataUrlHeader ≠ [] := by decide
    simp [List.append_eq_nil, hdne]
  unfold base64_to_image
  rw [if_neg hne, stripDataUrl_header _ hnc,
    if_neg (by rw [wB64enc_length, wJpegEnc_length]; omega), hrt]
  show decodeBytes wImgOpen (wJpegEnc im) = _
  unfold decodeBytes
  rw [if_neg (by rw [wJpegEnc_length]; omega), wImgOpen_wJpegEnc]
  rfl

/-- **C5** counterexample: for the 2000×1 buffer (positive dimensions, aspect
ratio above 800) the integer downscale truncates the width to 0
(`int(1 * 800 / 2000) = 0`); `cv2.resize` raises on that degenerate target
and the function's catch-all returns `None`, so `image_to_base64` itself
fails and the round-trip yields no buffer — refuting the claim that
`decodeImage(encodeImage(P))` yields a buffer for every pixel buffer `P`. -/
theorem roundtrip_counterexample :
    resizeDims ⟨2000, 1⟩ = ⟨800, 0⟩ ∧
    image_to_base64 wJpegEnc wB64enc (some ⟨2000, 1⟩) = none ∧
    Option.bind (image_to_base64 wJpegEnc wB64enc (some ⟨2000, 1⟩))
      (base64_to_image wB64dec wImgOpen) = none := by
  refine ⟨by decide, ?_, ?_⟩ <;> rfl

/-- **C5** witness: a 600×400 buffer (both dimensions at most 800) with
concrete codecs that round-trip the payload; no resize happens and the
round-trip returns the dimensions unchanged. -/
theorem encode_decode_roundtrip_witness :
    image_to_base64 wJpegEnc wB64enc (some ⟨600, 400⟩)
        = some (dataUrlHeader ++ wB64enc (wJpegEnc (resizeDims ⟨600, 400⟩))) ∧
    base64_to_image wB64dec wImgOpen
        (dataUrlHeader ++ wB64enc (wJpegEnc (resizeDims ⟨600, 400⟩)))
        = some (resizeDims ⟨600, 400⟩) ∧
    (resizeDims ⟨600, 400⟩).h ≤ (⟨600, 400⟩ : Img).h ∧
    (resizeDims ⟨600, 400⟩).w ≤ (⟨600, 400⟩ : Img).w ∧
    (resizeDims ⟨600, 400⟩).h ≤ 800 ∧ (resizeDims ⟨600, 400⟩).w ≤ 800 ∧
    (resizeDims ⟨600, 400⟩ = ⟨600, 400⟩ ↔
      max (⟨600, 400⟩ : Img).h (⟨600, 400⟩ : Img).w ≤ 800) :=
  encode_decode_roundtrip wJpegEnc wB64enc wB64dec wImgOpen ⟨600, 400⟩
    (by decide) (by decide) (wImgOpen_wJpegEnc _)
    (wB64_roundtrip _ (wJpegEnc_mem_lt (resizeDims ⟨600, 400⟩) (by decide) (by decide)))
    (wB64enc_no_comma _ (wJpegEnc_mem_lt (resizeDims ⟨600, 400⟩) (by decide) (by decide)))
    (by rw [wJpegEnc_length]; omega)
    (by rw [wB64enc_length, wJpegEnc_length]; omega)

/-- **C4**: for every `/api/detect` request body missing at least one of the
required fields, the handler returns HTTP 400 with `status := "error"` and
message `"Missing required field: <field>"` naming the first missing field in
the fixed check order (all fields checked before it are present), and the
database is unchanged. -/
theorem detect_missing_field
    (saveImage : List Char → String → Option String) (newId : String) (now : Nat)
    (data : DetectReq) (db : List Row)
    (hmiss : ∃ f ∈ required_fields, hasField data f = false) :
    detectRejectsMissing saveImage newId now data db := by
  have hsome : (firstMissing data).isSome := by
    unfold firstMissing
    rw [List.find?_isSome]
    obtain ⟨f, hf, hff⟩ := hmiss
    exact ⟨f, hf, by simp [hff]⟩
  obtain ⟨f, hf⟩ := Option.isSome_iff_exists.mp hsome
  obtain ⟨hpf, pre, post, hsplit, hpre⟩ :=
    List.find?_eq_some.mp (by exact hf)
  unfold detectRejectsMissing firstMissingSpec missingFieldResp
  refine ⟨f, hf, ⟨by simpa using hpf, pre, post, hsplit, ?_⟩, ?_⟩
  · intro g hg
    have := hpre g hg
    simpa using this
  · unfold detect_damage
    rw [hf]

/-- **C4** witness: a body missing exactly `latitude` yields the 400 response
naming `latitude`, with the database untouched. -/
theorem detect_missing_field_witness :
    detectRejectsMissing wSaveImage "id0" 11 ⟨some ['x'], none, some 3, some []⟩ [] :=
  detect_missing_field wSaveImage "id0" 11 ⟨some ['x'], none, some 3, some []⟩ []
    ⟨"latitude", by decide, rfl⟩

/-- **C8**: for every stored set of rows and any insertion order,
`get_detections` returns the detection events ordered by timestamp descending:
it is a permutation of the table whose timestamp sequence is weakly
decreasing. -/
theorem detections_sorted_desc (db : List Row) :
    List.Sorted (fun a b : Nat => b ≤ a) ((get_detections db).map Row.timestamp) ∧
    (get_detections db).Perm db := by
  constructor
  · have hs : List.Sorted tsDesc (get_detections db) :=
      List.sorted_insertionSort tsDesc db
    exact List.Pairwise.map Row.timestamp (fun a b h => h) hs
  · exact List.perm_insertionSort tsDesc db

theorem sumVals_bump (m : List (String × Nat)) (k : String) :
    sumVals (bump m k) = sumVals m + 1 := by
  induction m with
  | nil => rfl
  | cons p rest ih =>
    obtain ⟨k2, v⟩ := p
    unfold bump
    by_cases hk : k2 = k
    · rw [if_pos hk]
      simp [sumVals]
      omega
    · rw [if_neg hk]
      simp [sumVals] at ih ⊢
      omega

theorem lookupD_bump (m : List (String × Nat)) (k k2 : String) :
    lookupD (bump m k) k2 = lookupD m k2 + (if k2 = k then 1 else 0) := by
  induction m with
  | nil =>
    by_cases h : k = k2
    · subst h
      simp [bump, lookupD]
    · simp [bump, lookupD, if_neg h, if_neg (fun hh : k2 = k => h hh.symm)]
  | cons p rest ih =>
    obtain ⟨a, v⟩ := p
    show lookupD (if a = k then (a, v + 1) :: rest else (a, v) :: bump rest k) k2 = _
    by_cases ha : a = k
    · rw [if_pos ha]
      show (if a = k2 then v + 1 else lookupD rest k2)
          = (if a = k2 then v else lookupD rest k2) + (if k2 = k then 1 else 0)
      by_cases h2 : a = k2
      · rw [if_pos h2, if_pos h2, if_pos ((h2.symm).trans ha)]
      · rw [if_neg h2, if_neg h2,
          if_neg (fun hh : k2 = k => h2 ((hh.trans ha.symm).symm))]
        omega
    · rw [if_neg ha]
      show (if a = k2 then v else lookupD (bump rest k) k2)
          = (if a = k2 then v else lookupD rest k2) + (if k2 = k then 1 else 0)
      by_cases h2 : a = k2
      · rw [if_pos h2, if_pos h2, if_neg (fun hh : k2 = k => ha (h2.trans hh))]
        omega
      · rw [if_neg h2, if_neg h2, ih]

theorem foldl_bump_sum (ls : List String) (m : List (String × Nat)) :
    sumVals (ls.foldl bump m) = sumVals m + ls.length := by
  induction ls generalizing m with
  | nil => simp
  | cons a ls ih =>
    simp only [List.foldl_cons, List.length_cons]
    rw [ih, sumVals_bump]
    omega

theorem foldl_bump_lookup (ls : List String) (m : List (String × Nat)) (k : String) :
    lookupD (ls.foldl bump m) k = lookupD m k + ls.count k := by
  induction ls generalizing m with
  | nil => simp
  | cons a ls ih =>
    simp only [List.foldl_cons, List.count_cons]
    rw [ih, lookupD_bump]
    by_cases hka : k = a
    · simp [hka]
      omega
    · simp [hka, Ne.symm]

theorem stats_fold_eq (rows : List Row) (m : List (String × Nat)) :
    rows.foldl (fun m2 r => r.damages.foldl (fun m3 d => bump m3 (labelOf d)) m2) m
      = (allLabels rows).foldl bump m := by
  induction rows generalizing m with
  | nil => rfl
  | cons r rows ih =>
    simp only [allLabels, List.foldl_cons, List.foldl_append]
    rw [ih, List.foldl_map]

theorem allLabels_length (rows : List Row) :
    (allLabels rows).length = (rows.map (fun r => r.damages.length)).sum := by
  induction rows with
  | nil => rfl
  | cons r rows ih => simp [allLabels, ih]

theorem foldl_append_eq (rows acc : List Row) :
    rows.foldl (fun db r => db ++ [r]) acc = acc ++ rows := by
  induction rows generalizing acc with
  | nil => simp
  | cons r rows ih => simp [List.foldl_cons, ih]

theorem insertRows_eq (rows : List Row) : insertRows rows = rows := by
  unfold insertRows
  rw [foldl_append_eq]
  simp

/-- **C6**: for every sequence of inserted rows with structured damage
entries, `get_stats` returns a total count equal to the number of rows
inserted, and a damage-type distribution whose values sum to the total number
of damage entries across all rows, each entry being counted under its class
label (`"Unknown"` when the class field is absent). -/
theorem stats_aggregate (rows : List Row) :
    (get_stats (insertRows rows)).1 = rows.length ∧
    sumVals (get_stats (insertRows rows)).2
      = (rows.map (fun r => r.damages.length)).sum ∧
    ∀ k, lookupD (get_stats (insertRows rows)).2 k = (allLabels rows).count k := by
  rw [insertRows_eq rows]
  unfold get_stats
  refine ⟨rfl, ?_, ?_⟩
  · show sumVals (rows.foldl _ []) = _
    rw [stats_fold_eq, foldl_bump_sum, allLabels_length]
    simp [sumVals]
  · intro k
    show lookupD (rows.foldl _ []) k = _
    rw [stats_fold_eq, foldl_bump_lookup]
    simp [lookupD]

theorem pair_no_insert {α : Type} {x y : α} {db : List Row} {r : Row}
    (h : (x, db) = (y, db ++ [r])) : False := by
  have := congrArg (fun p : α × List Row => p.2.length) h
  simp at this

theorem append_singleton_inj {db : List Row} {a b : Row}
    (h : db ++ [a] = db ++ [b]) : a = b := by
  have := List.append_cancel_left h
  simpa using this

theorem parallel_of_map (dmgs : List DamageIn) (imgid path : String)
    (la lo : ℚ) (ts : Nat) :
    scoresParallel ⟨imgid, path, la, lo, dmgs,
      dmgs.map (fun d => d.confidence.getD 0), ts⟩ := by
  constructor
  · simp
  · intro i hi hj
    simp [List.getElem_map]

theorem parallel_of_infer (dets : List Damage) (imgid path : String)
    (la lo : ℚ) (ts : Nat) :
    scoresParallel ⟨imgid, path, la, lo, dets.map Damage.toStored,
      dets.map (fun d => d.confidence), ts⟩ := by
  constructor
  · simp
  · intro i hi hj
    simp [List.getElem_map, Damage.toStored]

/-- **C9**: every row inserted through either HTTP save path (`/api/detect`
or `/api/infer`) stores a `confidence_scores` list of the same length as its
`detected_damages` list, with element `i` equal to the confidence of damage
`i` (defaulting to 0 in the `/api/detect` path when the client record has no
confidence field). -/
theorem inserted_scores_parallel
    (saveImage : List Char → String → Option String) (newId : String) (now : Nat)
    (data : DetectReq) (db : List Row) (resp : DetectResp) (row : Row)
    (b64dec : List Char → Option (List Nat)) (imgOpen : List Nat → Option Img)
    (jpegEnc : Img → List Nat) (b64enc : List Nat → List Char)
    (model : Option (Img → ℚ → Except Unit (List RawBox)))
    (saveImage2 : List Char → String → Option String) (newId2 : String) (now2 : Nat)
    (data2 : InferReq) (db2 : List Row) (resp2 : InferResp) (row2 : Row)
    (h1 : detect_damage saveImage newId now data db = (resp, db ++ [row]))
    (h2 : infer_damage b64dec imgOpen jpegEnc b64enc model saveImage2
            newId2 now2 data2 db2 = (resp2, db2 ++ [row2])) :
    scoresParallel row ∧ scoresParallel row2 := by
  constructor
  · unfold detect_damage at h1
    cases hf : firstMissing data with
    | some f =>
      rw [hf] at h1
      exact (pair_no_insert h1).elim
    | none =>
      rw [hf] at h1
      dsimp only at h1
      cases hs : saveImage (data.image_base64.getD []) newId with
      | none =>
        rw [hs] at h1
        exact (pair_no_insert h1).elim
      | some path =>
        rw [hs] at h1
        simp only [Prod.mk.injEq] at h1
        have hrow := append_singleton_inj h1.2
        rw [← hrow]
        exact parallel_of_map _ _ _ _ _ _
  · unfold infer_damage at h2
    cases hib : data2.image_base64 with
    | none =>
      rw [hib] at h2
      exact (pair_no_insert h2).elim
    | some ib =>
      rw [hib] at h2
      dsimp only at h2
      cases hdec : base64_to_image b64dec imgOpen ib with
      | none =>
        rw [hdec] at h2
        exact (pair_no_insert h2).elim
      | some image =>
        rw [hdec] at h2
        dsimp only at h2
        cases henc : image_to_base64 jpegEnc b64enc
            (some (run_yolo_inference model image
              (data2.confidence_threshold.getD (1/2))).1) with
        | none =>
          rw [henc] at h2
          exact (pair_no_insert h2).elim
        | some aib =>
          rw [henc] at h2
          dsimp only at h2
          cases hsr : data2.save_result.getD false &&
              !(run_yolo_inference model image
                (data2.confidence_threshold.getD (1/2))).2.isEmpty with
          | false =>
            rw [hsr] at h2
            simp only [Bool.false_eq_true, if_false] at h2
            exact (pair_no_insert h2).elim
          | true =>
            rw [hsr] at h2
            simp only [if_true] at h2
            cases hla : data2.latitude with
            | none =>
              rw [hla] at h2
              exact (pair_no_insert h2).elim
            | some la =>
              rw [hla] at h2
              try dsimp only at h2
              cases hlo : data2.longitude with
              | none =>
                rw [hlo] at h2
                exact (pair_no_insert h2).elim
              | some lo =>
                rw [hlo] at h2
                dsimp only at h2
                cases hsv : saveImage2 ib newId2 with
                | none =>
                  rw [hsv] at h2
                  exact (pair_no_insert h2).elim
                | some path2 =>
                  rw [hsv] at h2
                  simp only [Prod.mk.injEq] at h2
                  have hrow2 := append_singleton_inj h2.2
                  rw [← hrow2]
                  exact parallel_of_infer _ _ _ _ _ _

theorem wIb_decode : base64_to_image wB64dec wImgOpen wIb = some ⟨10, 10⟩ := by
  unfold wIb
  rw [wDecode_encoded ⟨10, 10⟩ (by decide) (by decide)]
  rfl

theorem rescale_at_0 : rescaleCoord 0 10 = 0 := by
  have h : (0 : ℚ) * ((10 : ℕ) : ℚ) / 640 = 0 := by push_cast; norm_num
  unfold rescaleCoord pyTrunc
  rw [if_pos (by rw [h]), h]
  exact Int.floor_zero

theorem rescale_at_320 : rescaleCoord 320 10 = 5 := by
  have h : (320 : ℚ) * ((10 : ℕ) : ℚ) / 640 = 5 := by push_cast; norm_num
  unfold rescaleCoord pyTrunc
  rw [if_pos (by rw [h]; norm_num), h]
  simp

theorem wDamage_eval :
    mkDamage 10 10 "Potholes" ⟨0, 0, 320, 320, 3, 9/10⟩
      = ⟨"Potholes", 9/10, [0, 0, 5, 5]⟩ := by
  unfold mkDamage
  dsimp only
  rw [rescale_at_0, rescale_at_320]

theorem wRun_eval :
    run_yolo_inference (some wBoxPredict) ⟨10, 10⟩ (1/2)
      = (⟨10, 10⟩, [⟨"Potholes", 9/10, [0, 0, 5, 5]⟩]) := by
  show ((⟨10, 10⟩ : Img), [mkDamage 10 10 "Potholes" ⟨0, 0, 320, 320, 3, 9/10⟩])
      = ((⟨10, 10⟩ : Img), [(⟨"Potholes", 9/10, [0, 0, 5, 5]⟩ : Damage)])
  rw [wDamage_eval]

theorem wInfer_eval :
    infer_damage wB64dec wImgOpen wJpegEnc wB64enc (some wBoxPredict) wSaveImage
        "id2" 6 ⟨some wIb, some (1/2), some true, some 1, some 2⟩ [] =
      (⟨200, "success", none, some (dataUrlHeader ++ wB64enc (wJpegEnc ⟨10, 10⟩)),
        some [⟨"Potholes", 9/10, [0, 0, 5, 5]⟩], some 1, some true, some 1, some "id2"⟩,
       [⟨"id2", "uploads/id2.jpg", 1, 2,
         [⟨some "Potholes", some (9/10), [0, 0, 5, 5]⟩], [9/10], 6⟩]) := by
  unfold infer_damage
  dsimp only [Option.getD]
  rw [wIb_decode]
  dsimp only [Option.getD]
  rw [wRun_eval]
  rfl

/-- **C9** witness: a concrete run of each save path (a `/api/detect` request
with one damage record carrying confidence 17/20, and a `/api/infer` request
whose model reports one class-3 box) each inserts one row, and both rows
satisfy the parallel-scores invariant. -/
theorem inserted_scores_parallel_witness :
    scoresParallel ⟨"id1", "uploads/id1.jpg", 1, 2,
        [⟨some "Potholes", some (17/20), [1, 2, 3, 4]⟩], [17/20], 5⟩ ∧
    scoresParallel ⟨"id2", "uploads/id2.jpg", 1, 2,
        [⟨some "Potholes", some (9/10), [0, 0, 5, 5]⟩], [9/10], 6⟩ :=
  inserted_scores_parallel wSaveImage "id1" 5
    ⟨some ['x'], some 1, some 2, some [⟨some "Potholes", some (17/20), [1, 2, 3, 4]⟩]⟩
    []
    ⟨200, "success", some "Detection saved successfully", some 1, some "id1", some 1⟩
    ⟨"id1", "uploads/id1.jpg", 1, 2, [⟨some "Potholes", some (17/20), [1, 2, 3, 4]⟩],
      [17/20], 5⟩
    wB64dec wImgOpen wJpegEnc wB64enc (some wBoxPredict) wSaveImage "id2" 6
    ⟨some wIb, some (1/2), some true, some 1, some 2⟩ []
    ⟨200, "success", none, some (dataUrlHeader ++ wB64enc (wJpegEnc ⟨10, 10⟩)),
      some [⟨"Potholes", 9/10, [0, 0, 5, 5]⟩], some 1, some true, some 1, some "id2"⟩
    ⟨"id2", "uploads/id2.jpg", 1, 2, [⟨some "Potholes", some (9/10), [0, 0, 5, 5]⟩],
      [9/10], 6⟩
    rfl wInfer_eval

theorem no_row_append (db : List Row) : ¬ ∃ row : Row, db = db ++ [row] := by
  rintro ⟨row, hrow⟩
  have := congrArg List.length hrow
  simp at this

/-- **C10**: under a successfully processed POST `/api/infer` request (the
field is present, the image decodes, the annotated image encodes), a row is
persisted if and only if `save_result` is set, the detection sequence is
non-empty, both latitude and longitude are present, and the image save
succeeds; whenever any of these conditions fails, the database is unchanged
and the handler still returns HTTP 200 with a success envelope omitting the
`saved`, `detection_id` and `image_id` keys. -/
theorem infer_save_policy
    (b64dec : List Char → Option (List Nat)) (imgOpen : List Nat → Option Img)
    (jpegEnc : Img → List Nat) (b64enc : List Nat → List Char)
    (model : Option (Img → ℚ → Except Unit (List RawBox)))
    (saveImage : List Char → String → Option String)
    (newId : String) (now : Nat) (data : InferReq) (db : List Row)
    (ib : List Char) (image : Img) (aib : List Char)
    (hib : data.image_base64 = some ib)
    (hdec : base64_to_image b64dec imgOpen ib = some image)
    (henc : image_to_base64 jpegEnc b64enc (some image) = some aib) :
    savePolicy b64dec imgOpen jpegEnc b64enc model saveImage
      newId now data db ib image := by
  have hfst := run_yolo_fst model image (data.confidence_threshold.getD (1/2))
  unfold savePolicy saveConds skippedSaveResp
  unfold infer_damage
  rw [hib]
  dsimp only
  rw [hdec]
  dsimp only
  rw [hfst, henc]
  dsimp only
  cases hcond : data.save_result.getD false &&
      !(run_yolo_inference model image
        (data.confidence_threshold.getD (1/2))).2.isEmpty with
  | false =>
    rw [if_neg Bool.false_ne_true]
    dsimp only
    have hrhsF : ¬ (data.save_result.getD false = true ∧
        (run_yolo_inference model image
          (data.confidence_threshold.getD (1/2))).2 ≠ [] ∧
        data.latitude.isSome = true ∧ data.longitude.isSome = true ∧
        (saveImage ib newId).isSome = true) := by
      rintro ⟨hs, hd, -, -, -⟩
      rcases Bool.and_eq_false_iff.mp hcond with hc | hc
      · rw [hs] at hc
        exact Bool.noConfusion hc
      · rw [Bool.not_eq_false'] at hc
        exact hd (List.isEmpty_iff.mp hc)
    exact ⟨iff_of_false (no_row_append db) hrhsF,
      fun _ => ⟨rfl, rfl, rfl, rfl, rfl, rfl⟩⟩
  | true =>
    rw [if_pos rfl]
    obtain ⟨hs, hni⟩ := Bool.and_eq_true_iff.mp hcond
    have hdne : (run_yolo_inference model image
        (data.confidence_threshold.getD (1/2))).2 ≠ [] := by
      rw [Bool.not_eq_true'] at hni
      exact List.isEmpty_eq_false.mp hni
    cases hla : data.latitude with
    | none =>
      dsimp only
      have hrhsF : ¬ (data.save_result.getD false = true ∧
          (run_yolo_inference model image
            (data.confidence_threshold.getD (1/2))).2 ≠ [] ∧
          (none : Option ℚ).isSome = true ∧ data.longitude.isSome = true ∧
          (saveImage ib newId).isSome = true) := by
        rintro ⟨-, -, hlat, -, -⟩
        exact Bool.noConfusion hlat
      exact ⟨iff_of_false (no_row_append db) hrhsF,
        fun _ => ⟨rfl, rfl, rfl, rfl, rfl, rfl⟩⟩
    | some la =>
      cases hlo : data.longitude with
      | none =>
        dsimp only
        have hrhsF : ¬ (data.save_result.getD false = true ∧
            (run_yolo_inference model image
              (data.confidence_threshold.getD (1/2))).2 ≠ [] ∧
            (some la).isSome = true ∧ (none : Option ℚ).isSome = true ∧
            (saveImage ib newId).isSome = true) := by
          rintro ⟨-, -, -, hlon, -⟩
          exact Bool.noConfusion hlon
        exact ⟨iff_of_false (no_row_append db) hrhsF,
          fun _ => ⟨rfl, rfl, rfl, rfl, rfl, rfl⟩⟩
      | some lo =>
        dsimp only
        cases hsv : saveImage ib newId with
        | none =>
          dsimp only
          have hrhsF : ¬ (data.save_result.getD false = true ∧
              (run_yolo_inference model image
                (data.confidence_threshold.getD (1/2))).2 ≠ [] ∧
              (some la).isSome = true ∧ (some lo).isSome = true ∧
              (none : Option String).isSome = true) := by
            rintro ⟨-, -, -, -, hsave⟩
            exact Bool.noConfusion hsave
          exact ⟨iff_of_false (no_row_append db) hrhsF,
            fun _ => ⟨rfl, rfl, rfl, rfl, rfl, rfl⟩⟩
        | some path =>
          dsimp only
          have hrhsT : data.save_result.getD false = true ∧
              (run_yolo_inference model image
                (data.confidence_threshold.getD (1/2))).2 ≠ [] ∧
              (some la).isSome = true ∧ (some lo).isSome = true ∧
              (some path).isSome = true :=
            ⟨hs, hdne, rfl, rfl, rfl⟩
          refine ⟨iff_of_true ⟨_, rfl⟩ hrhsT, fun hcon => absurd hrhsT hcon⟩

/-- **C10** witness: a concrete `/api/infer` request with `save_result` set
and coordinates present but no model loaded: the detection sequence is empty,
so no row is persisted and the handler still answers 200 with the save keys
omitted. -/
theorem infer_save_policy_witness :
    savePolicy wB64dec wImgOpen wJpegEnc wB64enc none wSaveImage "id3" 7
      ⟨some wIb, some (1/2), some true, some 1, some 2⟩ [] wIb ⟨10, 10⟩ :=
  infer_save_policy wB64dec wImgOpen wJpegEnc wB64enc none wSaveImage "id3" 7
    ⟨some wIb, some (1/2), some true, some 1, some 2⟩ [] wIb ⟨10, 10⟩
    (dataUrlHeader ++ wB64enc (wJpegEnc ⟨10, 10⟩)) rfl wIb_decode rfl
